import Mathlib

set_option linter.unusedVariables false

/-!
A shallow embedding of the `microenv` Go package (ceil-go/microenv) and proofs
about its operations.  The embedding follows the variant of the source that the
package's test suite compiles against (the multi-waiter `Awaiter`, hooks and
callables receiving the `*MicroEnv` handle, `simpleType` tagging channels as
`"promise"`); the near-duplicate historical copy `microenv.go` differs only in
the points noted in comments.

Modelling conventions:
* Go `interface{}` values stored in the environment are the inductive `GoVal`,
  a tagged union over the kinds `simpleType` distinguishes.  Function values
  carry their declared parameter types (`List GoTy`) and an opaque code of
  type `κ`; a semantics `exec : κ → ...` is passed to `Call` as a parameter.
* `sync.Map` becomes an association list with first-match lookup and
  in-place overwrite, updated by explicit state passing.
* Channels are identified by `Nat` ids drawn from a `ChanWorld` counter; a
  send on a channel is logged in `ChanWorld.sends`, so "handle h received
  value v exactly once" is "the log's entries for h are exactly [v]".
* `reflect` panics (unassignable call arguments, `Interface()` on the zero
  `Value` produced by `reflect.Indirect` of a nil pointer) are modelled as
  `CallOutcome.panicked` / `Option.none` outcomes.
* The get-hook is modelled as a pure function receiving the data map (the
  source hands it the env handle; only its returned `(value, ok)` is observed
  by `Get`).  The set-hook returns nothing in the source; it is modelled as a
  pure observer whose invocation leaves the state unchanged (re-entrant
  mutation through the env handle is outside this sequential model).
-/

/-- Coarse Go types as `reflect` distinguishes them in this code base:
the empty interface, the kinds `simpleType` switches on, and the
`*MicroEnv` handle type that `Call` passes as second argument. -/
inductive GoTy where
  | tAny
  | tBool
  | tString
  | tNumber
  | tArr
  | tMap
  | tStruct
  | tChan
  | tPtr
  | tFunc
  | tEnv
  deriving DecidableEq

/-- Dynamically typed Go values stored in the environment.  `vfunc` records
the declared parameter types and an opaque function body of type `κ`;
`vptr` is a pointer that is either nil (`none`) or holds a referent.
`vnum` stands for the whole numeric family (int*, uint*, float*), which the
source treats uniformly. -/
inductive GoVal (κ : Type) where
  | vnil
  | vbool (b : Bool)
  | vstr (s : String)
  | vnum (n : Int)
  | varr (elems : List (GoVal κ))
  | vmap (entries : List (String × GoVal κ))
  | vstruct (fields : List (String × GoVal κ))
  | vchan
  | vptr (ref : Option (GoVal κ))
  | vfunc (inTys : List GoTy) (code : κ)

/-- The dynamic type of a non-nil value, as `reflect.TypeOf` reports it.
(`vnil` is special-cased to `reflect.Zero` before the dynamic type is ever
consulted, so its image here is irrelevant; we use `tAny`.) -/
def GoVal.dynTy {κ : Type} : GoVal κ → GoTy
  | .vnil => .tAny
  | .vbool _ => .tBool
  | .vstr _ => .tString
  | .vnum _ => .tNumber
  | .varr _ => .tArr
  | .vmap _ => .tMap
  | .vstruct _ => .tStruct
  | .vchan => .tChan
  | .vptr _ => .tPtr
  | .vfunc _ _ => .tFunc

/-- Go assignability at this coarse granularity: everything is assignable to
`interface\x7b\x7d`, otherwise the dynamic type must match the declared one. -/
def assignable (decl dyn : GoTy) : Bool :=
  decl == .tAny || decl == dyn

/-- The zero value `reflect.Zero` produces for a declared parameter type
(pointer-, slice-, map-, chan-, func- and env-typed parameters have the Go
nil as zero value). -/
def zeroOf {κ : Type} : GoTy → GoVal κ
  | .tAny => .vnil
  | .tBool => .vbool false
  | .tString => .vstr ""
  | .tNumber => .vnum 0
  | .tStruct => .vstruct []
  | _ => .vnil

/-- First-match lookup in an association list (`sync.Map.Load`). -/
def loadAssoc {α : Type} : List (String × α) → String → Option α
  | [], _ => none
  | (k', v) :: rest, k => if k' = k then some v else loadAssoc rest k

/-- Overwriting store in an association list (`sync.Map.Store`). -/
def storeAssoc {α : Type} : List (String × α) → String → α → List (String × α)
  | [], k, v => [(k, v)]
  | (k', v') :: rest, k, v =>
    if k' = k then (k, v) :: rest else (k', v') :: storeAssoc rest k v

/-- Removal from an association list (`sync.Map.Delete`). -/
def eraseAssoc {α : Type} : List (String × α) → String → List (String × α)
  | [], _ => []
  | (k', v') :: rest, k =>
    if k' = k then rest else (k', v') :: eraseAssoc rest k

/-- The multi-waiter `Awaiter` of the source: a resolved flag, the resolved
value, and the channels registered before resolution. -/
structure Awaiter (κ : Type) where
  done : Bool
  val : GoVal κ
  chs : List Nat

/-- The `newAwaiter` constructor: unresolved, no registered channels. -/
def newAwaiter {κ : Type} : Awaiter κ :=
  { done := false, val := .vnil, chs := [] }

/-- The ambient channel state: a fresh-id counter and the log of all sends
performed so far (each channel is buffered with capacity one and closed right
after its single send, so the log keeps every delivery). -/
structure ChanWorld (κ : Type) where
  nextCh : Nat
  sends : List (Nat × GoVal κ)

/-- The values delivered to channel `ch`, in order. -/
def sentVals {κ : Type} (ω : ChanWorld κ) (ch : Nat) : List (GoVal κ) :=
  (ω.sends.filter (fun p => p.1 == ch)).map (fun p => p.2)

/-- `Awaiter.addWaiter`: create a fresh channel; if the awaiter is already
resolved, deliver the stored value to it at once, otherwise register it. -/
def Awaiter.addWaiter {κ : Type} (w : Awaiter κ) (ω : ChanWorld κ) :
    Nat × Awaiter κ × ChanWorld κ :=
  let ch := ω.nextCh
  if w.done then
    (ch, w, { nextCh := ch + 1, sends := ω.sends ++ [(ch, w.val)] })
  else
    (ch, { w with chs := w.chs ++ [ch] }, { ω with nextCh := ch + 1 })

/-- `Awaiter.resolve`: on the first call deliver `v` to every registered
channel and mark the awaiter done; any later call returns at once. -/
def Awaiter.resolve {κ : Type} (w : Awaiter κ) (ω : ChanWorld κ) (v : GoVal κ) :
    Awaiter κ × ChanWorld κ :=
  if w.done then (w, ω)
  else ({ done := true, val := v, chs := [] },
        { ω with sends := ω.sends ++ w.chs.map (fun c => (c, v)) })

/-- One entry of a descriptor: key, type tag, private flag (the synthesized
descriptor never sets the flag; a custom one may). -/
structure DescEntry where
  key : String
  ty : String
  priv : Bool
  deriving DecidableEq

/-- The descriptor value: an ordered list of children. -/
structure Descriptor where
  children : List DescEntry
  deriving DecidableEq

/-- The environment state.  `face` records the key set of the lazily grown
`FacePropertyAPI` table (each accessor is the fixed delegate to `Get`/`Set`
for its key, so the key set is the table's whole observable content). -/
structure MicroEnv (κ : Type) where
  data : List (String × GoVal κ)
  awaiters : List (String × Awaiter κ)
  customGet : Option (String → List (String × GoVal κ) → GoVal κ → GoVal κ × Bool)
  customSet : Option (String → GoVal κ → List (String × GoVal κ) → GoVal κ → Unit)
  face : List String
  customDescriptor : Option Descriptor

/-- `NewMicroEnv`: store every initial pair (later duplicates overwrite), no
awaiters, an empty face table, and the options applied. -/
def NewMicroEnv {κ : Type} (data : List (String × GoVal κ))
    (cg : Option (String → List (String × GoVal κ) → GoVal κ → GoVal κ × Bool))
    (cs : Option (String → GoVal κ → List (String × GoVal κ) → GoVal κ → Unit))
    (cd : Option Descriptor) : MicroEnv κ :=
  { data := data.foldl (fun acc kv => storeAssoc acc kv.1 kv.2) []
    awaiters := []
    customGet := cg
    customSet := cs
    face := []
    customDescriptor := cd }

/-- What `Get` returns together with the successor state: the value, the
await handle (`some` channel id only in the `next` form), the found flag,
and the updated environment and channel state. -/
structure GetOut (κ : Type) where
  val : GoVal κ
  handle : Option Nat
  found : Bool
  env : MicroEnv κ
  world : ChanWorld κ

/-- `MicroEnv.Get`.  Without `next`: the get-hook's result is authoritative
when installed, otherwise a plain map load (missing key gives nil/false).
With `next`: load-or-store the key's awaiter and register a fresh channel on
it; the caller identity is not consulted on this path. -/
def MicroEnv.Get {κ : Type} (m : MicroEnv κ) (ω : ChanWorld κ) (key : String)
    (next : Bool) (caller : GoVal κ) : GetOut κ :=
  if next then
    let aw := (loadAssoc m.awaiters key).getD newAwaiter
    let r := aw.addWaiter ω
    { val := .vnil, handle := some r.1, found := true
      env := { m with awaiters := storeAssoc m.awaiters key r.2.1 }
      world := r.2.2 }
  else
    match m.customGet with
    | some cg =>
      let r := cg key m.data caller
      { val := r.1, handle := none, found := r.2, env := m, world := ω }
    | none =>
      match loadAssoc m.data key with
      | some v => { val := v, handle := none, found := true, env := m, world := ω }
      | none => { val := .vnil, handle := none, found := false, env := m, world := ω }

/-- `ensureFaceFor` on the face key set: add the key if it is not present. -/
def ensureFaceFor (face : List String) (key : String) : List String :=
  if key ∈ face then face else face ++ [key]

/-- The successor state a `Set` produces. -/
structure SetOut (κ : Type) where
  env : MicroEnv κ
  world : ChanWorld κ

/-- `MicroEnv.Set`: store unconditionally, invoke the set-hook when installed
(a pure observer in this model), resolve and delete the key's awaiter if one
exists, and make sure the face table has an entry for the key. -/
def MicroEnv.Set {κ : Type} (m : MicroEnv κ) (ω : ChanWorld κ) (key : String)
    (val : GoVal κ) (caller : GoVal κ) : SetOut κ :=
  let m1 : MicroEnv κ := { m with data := storeAssoc m.data key val }
  let p : MicroEnv κ × ChanWorld κ :=
    match loadAssoc m1.awaiters key with
    | some aw =>
      let r := aw.resolve ω val
      ({ m1 with awaiters := eraseAssoc m1.awaiters key }, r.2)
    | none => (m1, ω)
  { env := { p.1 with face := ensureFaceFor p.1.face key }, world := p.2 }

/-- The outcome of a `Call`: a reflect-level fault, the not-ok rejection, or
the callable's ordered results. -/
inductive CallOutcome (κ : Type) where
  | panicked
  | notOk
  | ok (results : List (GoVal κ))

/-- Preparation of one `Call` argument against the declared parameter type:
a nil argument becomes `reflect.Zero` of the declared type; a non-nil one
must be assignable to it, otherwise `reflect.Value.Call` faults. -/
def argPrep {κ : Type} (decl : GoTy) (v : GoVal κ) : Option (GoVal κ) :=
  match v with
  | .vnil => some (zeroOf decl)
  | v => if assignable decl v.dynTy then some v else none

/-- `MicroEnv.Call`: missing key or non-function value or arity other than
three is rejected with not-ok; then the three arguments
`(payload, env handle, caller)` are prepared and the callable is invoked,
its ordered results returned unchanged.  The env handle is never nil and has
dynamic type `tEnv`.  An unassignable argument faults (the source performs
no check beyond the arity). -/
def MicroEnv.Call {κ : Type} (exec : κ → GoVal κ → MicroEnv κ → GoVal κ → List (GoVal κ))
    (m : MicroEnv κ) (key : String) (payload : GoVal κ) (caller : GoVal κ) :
    CallOutcome κ :=
  match loadAssoc m.data key with
  | none => .notOk
  | some v =>
    match v with
    | .vfunc inTys code =>
      match inTys with
      | [t0, t1, t2] =>
        match argPrep t0 payload, (assignable t1 .tEnv : Bool), argPrep t2 caller with
        | some p, true, some c => .ok (exec code p m c)
        | _, _, _ => .panicked
      | _ => .notOk
    | _ => .notOk

/-- The key list of the table `Face()` returns, together with the successor
state: the face table is first completed with an entry for every key
currently in the data map, then copied out. -/
def MicroEnv.Face {κ : Type} (m : MicroEnv κ) : List String × MicroEnv κ :=
  let f := m.data.foldl (fun acc kv => ensureFaceFor acc kv.1) m.face
  (f, { m with face := f })

/-- `simpleType`: the coarse type tag of a stored value.  `none` is the
reflect fault on a nil typed pointer (`reflect.Indirect` yields the zero
`Value`, whose `Interface()` call faults); every other value gets a tag. -/
def simpleType {κ : Type} : GoVal κ → Option String
  | .vnil => some "null"
  | .vbool _ => some "boolean"
  | .vstr _ => some "string"
  | .vnum _ => some "number"
  | .vfunc _ _ => some "function"
  | .varr _ => some "array"
  | .vmap _ => some "object"
  | .vstruct _ => some "object"
  | .vchan => some "promise"
  | .vptr (some v) => simpleType v
  | .vptr none => none

/-- The synthesized children of the descriptor: one `\x7bkey, type\x7d` entry per
data entry, in map order; `none` when tagging some value faults. -/
def descChildren {κ : Type} : List (String × GoVal κ) → Option (List DescEntry)
  | [] => some []
  | (k, v) :: rest =>
    match simpleType v, descChildren rest with
    | some t, some cs => some ({ key := k, ty := t, priv := false } :: cs)
    | _, _ => none

/-- `MicroEnv.Descriptor`: a custom descriptor is returned verbatim,
otherwise the children are synthesized from the current data map. -/
def MicroEnv.Descriptor {κ : Type} (m : MicroEnv κ) : Option Descriptor :=
  match m.customDescriptor with
  | some d => some d
  | none => (descChildren m.data).map (fun cs => { children := cs })

/-- The key set of the descriptor, `none` when synthesis faults. -/
def descriptorKeys {κ : Type} (m : MicroEnv κ) : Option (List String) :=
  (MicroEnv.Descriptor m).map (fun d => d.children.map (fun c => c.key))

/-! ## Basic lemmas about the association-list map operations -/

theorem loadAssoc_storeAssoc_self {α : Type} (l : List (String × α)) (k : String) (v : α) :
    loadAssoc (storeAssoc l k v) k = some v := by
  induction l with
  | nil => simp [storeAssoc, loadAssoc]
  | cons hd tl ih =>
    obtain ⟨k', v'⟩ := hd
    by_cases h : k' = k
    · simp [storeAssoc, h, loadAssoc]
    · simp [storeAssoc, h, loadAssoc, ih]

theorem storeAssoc_storeAssoc_self {α : Type} (l : List (String × α)) (k : String) (v v' : α) :
    storeAssoc (storeAssoc l k v) k v' = storeAssoc l k v' := by
  induction l with
  | nil => simp [storeAssoc]
  | cons hd tl ih =>
    obtain ⟨k'', v''⟩ := hd
    by_cases h : k'' = k
    · simp [storeAssoc, h]
    · simp [storeAssoc, h, ih]

theorem loadAssoc_eq_none_of_not_mem {α : Type} (l : List (String × α)) (k : String)
    (h : k ∉ l.map Prod.fst) : loadAssoc l k = none := by
  induction l with
  | nil => simp [loadAssoc]
  | cons hd tl ih =>
    obtain ⟨k', v'⟩ := hd
    simp only [List.map_cons, List.mem_cons] at h
    push_neg at h
    have hne : ¬ k' = k := fun hkk => h.1 hkk.symm
    simp [loadAssoc, hne, ih h.2]

theorem loadAssoc_eraseAssoc_self {α : Type} (l : List (String × α)) (k : String)
    (h : (l.map Prod.fst).Nodup) : loadAssoc (eraseAssoc l k) k = none := by
  induction l with
  | nil => simp [eraseAssoc, loadAssoc]
  | cons hd tl ih =>
    obtain ⟨k', v'⟩ := hd
    simp only [List.map_cons, List.nodup_cons] at h
    by_cases hk : k' = k
    · subst hk
      simpa [eraseAssoc] using loadAssoc_eq_none_of_not_mem tl k' h.1
    · simp [eraseAssoc, hk, loadAssoc, ih h.2]

theorem mem_map_fst_storeAssoc {α : Type} (l : List (String × α)) (k x : String) (v : α) :
    x ∈ (storeAssoc l k v).map Prod.fst ↔ x = k ∨ x ∈ l.map Prod.fst := by
  induction l with
  | nil => simp [storeAssoc]
  | cons hd tl ih =>
    obtain ⟨k', v'⟩ := hd
    by_cases h : k' = k
    · subst h
      simp [storeAssoc]
    · simp [storeAssoc, h, ih]
      tauto

/-! ## Lemmas about the face key set -/

theorem mem_ensureFaceFor (f : List String) (k x : String) :
    x ∈ ensureFaceFor f k ↔ x ∈ f ∨ x = k := by
  by_cases h : k ∈ f
  · constructor
    · intro hx
      exact Or.inl (by simpa [ensureFaceFor, h] using hx)
    · rintro (hx | rfl)
      · simpa [ensureFaceFor, h] using hx
      · simp [ensureFaceFor, h]
  · simp [ensureFaceFor, h]

theorem mem_faceFold {κ : Type} (l : List (String × GoVal κ)) (f : List String) (x : String) :
    x ∈ l.foldl (fun acc kv => ensureFaceFor acc kv.1) f ↔ x ∈ f ∨ x ∈ l.map Prod.fst := by
  induction l generalizing f with
  | nil => simp
  | cons hd tl ih =>
    simp only [List.foldl_cons, List.map_cons, List.mem_cons]
    rw [ih, mem_ensureFaceFor]
    tauto

theorem mem_Face {κ : Type} (m : MicroEnv κ) (x : String) :
    x ∈ (MicroEnv.Face m).1 ↔ x ∈ m.face ∨ x ∈ m.data.map Prod.fst := by
  simpa [MicroEnv.Face] using mem_faceFold m.data m.face x

/-! ## Characterizations of Get and Set -/

theorem Get_load_some {κ : Type} (m : MicroEnv κ) (ω : ChanWorld κ) (k : String)
    (c v : GoVal κ) (hget : m.customGet = none) (h : loadAssoc m.data k = some v) :
    m.Get ω k false c = { val := v, handle := none, found := true, env := m, world := ω } := by
  simp [MicroEnv.Get, hget, h]

theorem Get_load_none {κ : Type} (m : MicroEnv κ) (ω : ChanWorld κ) (k : String)
    (c : GoVal κ) (hget : m.customGet = none) (h : loadAssoc m.data k = none) :
    m.Get ω k false c = { val := .vnil, handle := none, found := false, env := m, world := ω } := by
  simp [MicroEnv.Get, hget, h]

theorem Get_await_fresh {κ : Type} (m : MicroEnv κ) (ω : ChanWorld κ) (k : String)
    (c : GoVal κ) (h : loadAssoc m.awaiters k = none) :
    m.Get ω k true c =
      { val := .vnil, handle := some ω.nextCh, found := true,
        env := { m with awaiters := storeAssoc m.awaiters k { done := false, val := .vnil, chs := [ω.nextCh] } },
        world := { ω with nextCh := ω.nextCh + 1 } } := by
  simp [MicroEnv.Get, h, newAwaiter, Awaiter.addWaiter]

theorem Get_await_pending {κ : Type} (m : MicroEnv κ) (ω : ChanWorld κ) (k : String)
    (c : GoVal κ) (aw : Awaiter κ) (h : loadAssoc m.awaiters k = some aw)
    (hd : aw.done = false) :
    m.Get ω k true c =
      { val := .vnil, handle := some ω.nextCh, found := true,
        env := { m with awaiters := storeAssoc m.awaiters k { aw with chs := aw.chs ++ [ω.nextCh] } },
        world := { ω with nextCh := ω.nextCh + 1 } } := by
  simp [MicroEnv.Get, h, Awaiter.addWaiter, hd]

theorem Set_spec_none {κ : Type} (m : MicroEnv κ) (ω : ChanWorld κ) (k : String)
    (v c : GoVal κ) (h : loadAssoc m.awaiters k = none) :
    m.Set ω k v c =
      { env := { m with data := storeAssoc m.data k v, face := ensureFaceFor m.face k },
        world := ω } := by
  simp [MicroEnv.Set, h]

theorem Set_spec_resolve {κ : Type} (m : MicroEnv κ) (ω : ChanWorld κ) (k : String)
    (v c : GoVal κ) (aw : Awaiter κ) (h : loadAssoc m.awaiters k = some aw) :
    m.Set ω k v c =
      { env := { m with data := storeAssoc m.data k v,
                        awaiters := eraseAssoc m.awaiters k,
                        face := ensureFaceFor m.face k },
        world := (aw.resolve ω v).2 } := by
  simp [MicroEnv.Set, h]

theorem Set_data {κ : Type} (m : MicroEnv κ) (ω : ChanWorld κ) (k : String) (v c : GoVal κ) :
    (m.Set ω k v c).env.data = storeAssoc m.data k v := by
  cases h : loadAssoc m.awaiters k with
  | none => rw [Set_spec_none m ω k v c h]
  | some aw => rw [Set_spec_resolve m ω k v c aw h]

theorem Set_customGet {κ : Type} (m : MicroEnv κ) (ω : ChanWorld κ) (k : String) (v c : GoVal κ) :
    (m.Set ω k v c).env.customGet = m.customGet := by
  cases h : loadAssoc m.awaiters k with
  | none => rw [Set_spec_none m ω k v c h]
  | some aw => rw [Set_spec_resolve m ω k v c aw h]

theorem Set_face {κ : Type} (m : MicroEnv κ) (ω : ChanWorld κ) (k : String) (v c : GoVal κ) :
    (m.Set ω k v c).env.face = ensureFaceFor m.face k := by
  cases h : loadAssoc m.awaiters k with
  | none => rw [Set_spec_none m ω k v c h]
  | some aw => rw [Set_spec_resolve m ω k v c aw h]

/-! ## Shared concrete instances used by counterexamples and witnesses -/

def noGetHook : Option (String → List (String × GoVal Unit) → GoVal Unit → GoVal Unit × Bool) :=
  none

def noSetHook : Option (String → GoVal Unit → List (String × GoVal Unit) → GoVal Unit → Unit) :=
  none

def world0 : ChanWorld Unit := { nextCh := 0, sends := [] }

def env0 : MicroEnv Unit := NewMicroEnv [] noGetHook noSetHook none

def execNull : Unit → GoVal Unit → MicroEnv Unit → GoVal Unit → List (GoVal Unit) :=
  fun _ _ _ _ => []

/-! ## C1: whitelist on keys absent from the construction-time descriptor -/

/-- C1: the claim states that for a key absent from the Descriptor at
construction, `Get` always reports not-found, `Set` is a no-op and `Call`
is not-ok, even if a value is later stored.  This is false on the code: the
key "k" is absent from the empty environment's descriptor, yet `Set` stores
a value under it (the data map changes) and the subsequent `Get` finds it. -/
theorem C1_counterexample :
    descriptorKeys env0 = some [] ∧
    (env0.Set world0 "k" (.vnum 1) .vnil).env.data ≠ env0.data ∧
    ((env0.Set world0 "k" (.vnum 1) .vnil).env.Get world0 "k" false .vnil).found = true :=
  ⟨by decide, fun h => absurd (congrArg List.length h) (by decide), by decide⟩

/-- C1 (amended): the operations are governed by presence in the current
data map, not by the construction-time descriptor.  With no get-hook, `Get`
on a key holding no value reports not-found and `Call` reports not-ok; but
`Set` is never a no-op: it stores its value under any key, after which the
key is found. -/
theorem C1_amended {κ : Type} (m : MicroEnv κ) (ω : ChanWorld κ) (k : String)
    (c p : GoVal κ) (exec : κ → GoVal κ → MicroEnv κ → GoVal κ → List (GoVal κ))
    (hget : m.customGet = none) (habs : loadAssoc m.data k = none) :
    (m.Get ω k false c).found = false ∧
    MicroEnv.Call exec m k p c = .notOk ∧
    (∀ v c', loadAssoc ((m.Set ω k v c').env.data) k = some v) := by
  refine ⟨?_, ?_, ?_⟩
  · rw [Get_load_none m ω k c hget habs]
  · simp [MicroEnv.Call, habs]
  · intro v c'
    rw [Set_data, loadAssoc_storeAssoc_self]

/-- C1 amended, witnessed on the empty environment and key "k". -/
theorem C1_amended_witness :
    env0.customGet = none ∧ loadAssoc env0.data "k" = none ∧
    loadAssoc ((env0.Set world0 "k" (.vnum 5) .vnil).env.data) "k" = some (.vnum 5) :=
  ⟨rfl, rfl, (C1_amended env0 world0 "k" .vnil .vnil execNull rfl rfl).2.2 (.vnum 5) .vnil⟩

/-! ## C2: the private flag and the caller identity -/

def secretDesc : Descriptor :=
  { children := [{ key := "secret", ty := "string", priv := true }] }

def envSecret : MicroEnv Unit :=
  NewMicroEnv [("secret", .vstr "shh")] noGetHook noSetHook (some secretDesc)

/-- C2: the claim states that operations on a key marked private succeed
exactly for the owner caller "".  This is false on the code: no operation
consults the descriptor or the caller. `envSecret`'s descriptor marks
"secret" private, yet `Get` with the non-owner caller "admin" succeeds. -/
theorem C2_counterexample :
    MicroEnv.Descriptor envSecret = some secretDesc ∧
    (envSecret.Get world0 "secret" false (.vstr "admin")).found = true :=
  ⟨by decide, by decide⟩

/-- C2 (amended): the caller identity and the private flag are never
consulted.  With no get-hook, `Get` succeeds for every caller exactly when
the key currently holds a value, and `Set` stores its value for every
caller. -/
theorem C2_amended {κ : Type} (m : MicroEnv κ) (ω : ChanWorld κ) (k : String)
    (c : GoVal κ) (hget : m.customGet = none) :
    ((m.Get ω k false c).found = (loadAssoc m.data k).isSome) ∧
    (∀ v, loadAssoc ((m.Set ω k v c).env.data) k = some v) := by
  constructor
  · cases h : loadAssoc m.data k with
    | none => rw [Get_load_none m ω k c hget h]; rfl
    | some v => rw [Get_load_some m ω k c v hget h]; rfl
  · intro v
    rw [Set_data, loadAssoc_storeAssoc_self]

/-- C2 amended, witnessed on the private-marked key with a non-owner
caller. -/
theorem C2_amended_witness :
    envSecret.customGet = none ∧
    (envSecret.Get world0 "secret" false (.vstr "admin")).found =
      (loadAssoc envSecret.data "secret").isSome :=
  ⟨rfl, (C2_amended envSecret world0 "secret" (.vstr "admin") rfl).1⟩

/-! ## C9: Set immediately followed by Get returns the stored value -/

/-- C9: with no get-hook installed, `Set(k, v, caller)` immediately followed
by `Get(k, false, caller)` returns the value v with found = true, for every
key, value and caller. -/
theorem C9_set_then_get {κ : Type} (m : MicroEnv κ) (ω : ChanWorld κ) (k : String)
    (v c : GoVal κ) (hget : m.customGet = none) :
    ((m.Set ω k v c).env.Get (m.Set ω k v c).world k false c).val = v ∧
    ((m.Set ω k v c).env.Get (m.Set ω k v c).world k false c).found = true := by
  have hget' : (m.Set ω k v c).env.customGet = none := by rw [Set_customGet, hget]
  have hload : loadAssoc ((m.Set ω k v c).env.data) k = some v := by
    rw [Set_data, loadAssoc_storeAssoc_self]
  rw [Get_load_some _ _ _ _ _ hget' hload]
  exact ⟨rfl, rfl⟩

/-- C9 witnessed: storing 2 under "a" in the empty environment and reading
it back yields (2, true). -/
theorem C9_witness :
    env0.customGet = none ∧
    ((env0.Set world0 "a" (.vnum 2) .vnil).env.Get (env0.Set world0 "a" (.vnum 2) .vnil).world
      "a" false .vnil).val = .vnum 2 :=
  ⟨rfl, (C9_set_then_get env0 world0 "a" (.vnum 2) .vnil rfl).1⟩

/-! ## C10: caller independence of Get and Set without hooks -/

/-- C10: with no get-hook and no set-hook installed, `Get` and `Set` do not
depend on the caller identity: both the returned results and the successor
states coincide for any two callers.  (The await path of `Get` never reads
the caller; the plain path reads it only to forward it to the hook; `Set`
reads it only to forward it to the hook.) -/
theorem C10_caller_independent {κ : Type} (m : MicroEnv κ) (ω : ChanWorld κ)
    (k : String) (next : Bool) (v c1 c2 : GoVal κ)
    (hget : m.customGet = none) (hset : m.customSet = none) :
    m.Get ω k next c1 = m.Get ω k next c2 ∧ m.Set ω k v c1 = m.Set ω k v c2 := by
  constructor
  · cases next with
    | false => simp [MicroEnv.Get, hget]
    | true => rfl
  · rfl

/-- C10 witnessed on the empty environment with callers "x" and "y". -/
theorem C10_witness :
    env0.customGet = none ∧ env0.customSet = none ∧
    env0.Get world0 "k" false (.vstr "x") = env0.Get world0 "k" false (.vstr "y") :=
  ⟨rfl, rfl,
    (C10_caller_independent env0 world0 "k" false .vnil (.vstr "x") (.vstr "y") rfl rfl).1⟩

/-! ## C4: the face table's key set under Set -/

def envA : MicroEnv Unit := NewMicroEnv [("a", .vnum 1)] noGetHook noSetHook none

/-- C4: the claim states that the key set of the table `Face()` returns is
fixed at construction for every sequence of `Set` calls, including on keys
outside the original whitelist.  This is false on the code: `Set` on the
new key "b" inserts a face entry for it (`ensureFaceFor`), so `Face()`
afterwards returns the key set \x7b"b", "a"\x7d instead of the construction-time
\x7b"a"\x7d. -/
theorem C4_counterexample :
    (MicroEnv.Face envA).1 = ["a"] ∧
    (MicroEnv.Face ((envA.Set world0 "b" (.vnum 2) .vnil).env)).1 = ["b", "a"] :=
  ⟨by decide, by decide⟩

/-- C4 (amended): the face table grows instead of staying fixed: after any
`Set(k, v, caller)` the key k is in the key set `Face()` returns, and the
key set never shrinks (every key visible before the Set is still visible
after it). -/
theorem C4_amended {κ : Type} (m : MicroEnv κ) (ω : ChanWorld κ) (k : String)
    (v c : GoVal κ) :
    k ∈ (MicroEnv.Face ((m.Set ω k v c).env)).1 ∧
    ∀ x ∈ (MicroEnv.Face m).1, x ∈ (MicroEnv.Face ((m.Set ω k v c).env)).1 := by
  have hface := Set_face m ω k v c
  have hdata := Set_data m ω k v c
  constructor
  · rw [mem_Face, hface, mem_ensureFaceFor]
    exact Or.inl (Or.inr rfl)
  · intro x hx
    rw [mem_Face, hface, hdata, mem_ensureFaceFor, mem_map_fst_storeAssoc]
    rw [mem_Face] at hx
    tauto

/-- C4 amended, witnessed: setting the fresh key "b" on an environment
constructed with \x7b"a"\x7d makes "b" visible while keeping "a" visible. -/
theorem C4_amended_witness :
    "b" ∈ (MicroEnv.Face ((envA.Set world0 "b" (.vnum 2) .vnil).env)).1 ∧
    "a" ∈ (MicroEnv.Face envA).1 ∧
    "a" ∈ (MicroEnv.Face ((envA.Set world0 "b" (.vnum 2) .vnil).env)).1 :=
  ⟨(C4_amended envA world0 "b" (.vnum 2) .vnil).1, by decide,
    (C4_amended envA world0 "b" (.vnum 2) .vnil).2 "a" (by decide)⟩

/-! ## C6: fail-closed policy of Call -/

def badFn : GoVal Unit := .vfunc [.tNumber, .tEnv, .tAny] ()

def envBad : MicroEnv Unit := NewMicroEnv [("f", badFn)] noGetHook noSetHook none

/-- C6: the claim (and the source's intent, whose comment admits only
functions of shape (payload, data, caller)) is that every shape mismatch is
answered with not-ok rather than a fault.  The code checks only the arity:
at this input the stored callable declares three parameters with first
parameter type int, the payload is a string, and `reflect.Value.Call`
faults instead of returning not-ok. -/
theorem C6_panic_on_type_mismatch :
    loadAssoc envBad.data "f" = some (.vfunc [.tNumber, .tEnv, .tAny] ()) ∧
    MicroEnv.Call execNull envBad "f" (.vstr "x") .vnil = .panicked :=
  ⟨rfl, rfl⟩

/-! ## C7: the three-parameter calling convention -/

def badFn2 : GoVal Unit := .vfunc [.tString, .tEnv, .tAny] ()

def envBad2 : MicroEnv Unit := NewMicroEnv [("g", badFn2)] noGetHook noSetHook none

/-- C7: the claim states that Call on any stored callable declaring exactly
three parameters invokes it and returns ok.  This is false on the code: the
callable under "g" declares three parameters (string first), but the
payload 5 is not assignable to its first parameter, so the call faults
instead of returning its results with ok = true. -/
theorem C7_counterexample :
    loadAssoc envBad2.data "g" = some (.vfunc [.tString, .tEnv, .tAny] ()) ∧
    MicroEnv.Call execNull envBad2 "g" (.vnum 5) .vnil = .panicked ∧
    (∀ rs : List (GoVal Unit), CallOutcome.panicked ≠ CallOutcome.ok rs) :=
  ⟨rfl, rfl, fun rs h => CallOutcome.noConfusion h⟩

/-- C7 (amended): Call on a stored callable declaring one or two parameters
returns not-ok; on a callable declaring exactly three parameters it invokes
it with (payload, store-view, caller) and returns the callable's own
ordered results unchanged with ok, provided each non-nil argument is
assignable to the corresponding declared parameter type (a nil argument is
replaced by that type's zero value; the store-view always fits its slot) —
otherwise the call faults. -/
theorem C7_amended {κ : Type} (exec : κ → GoVal κ → MicroEnv κ → GoVal κ → List (GoVal κ))
    (m : MicroEnv κ) (k : String) (payload caller : GoVal κ)
    (inTys : List GoTy) (code : κ)
    (h : loadAssoc m.data k = some (.vfunc inTys code)) :
    (inTys.length = 1 ∨ inTys.length = 2 → MicroEnv.Call exec m k payload caller = .notOk) ∧
    (∀ t0 t1 t2 p c, inTys = [t0, t1, t2] → argPrep t0 payload = some p →
      assignable t1 .tEnv = true → argPrep t2 caller = some c →
      MicroEnv.Call exec m k payload caller = .ok (exec code p m c)) := by
  constructor
  · intro hlen
    rcases inTys with _ | ⟨a, _ | ⟨b, _ | ⟨d, tl⟩⟩⟩
    · simp at hlen
    · simp [MicroEnv.Call, h]
    · simp [MicroEnv.Call, h]
    · simp at hlen
  · intro t0 t1 t2 p c heq hp ht hc
    subst heq
    simp [MicroEnv.Call, h, hp, ht, hc]

/-- C7 amended, witnessed: a callable of the conventional shape
(interface\x7b\x7d, *MicroEnv, interface\x7b\x7d) is invoked and its result list is
returned unchanged. -/
def goodFn : GoVal Unit := .vfunc [.tAny, .tEnv, .tAny] ()

def envGood : MicroEnv Unit := NewMicroEnv [("h", goodFn)] noGetHook noSetHook none

def execFirst : Unit → GoVal Unit → MicroEnv Unit → GoVal Unit → List (GoVal Unit) :=
  fun _ p _ _ => [p]

theorem C7_amended_witness :
    loadAssoc envGood.data "h" = some (.vfunc [.tAny, .tEnv, .tAny] ()) ∧
    MicroEnv.Call execFirst envGood "h" (.vnum 3) (.vstr "me") = .ok [.vnum 3] :=
  ⟨rfl,
    (C7_amended execFirst envGood "h" (.vnum 3) (.vstr "me") [.tAny, .tEnv, .tAny] () rfl).2
      .tAny .tEnv .tAny (.vnum 3) (.vstr "me") rfl rfl rfl rfl⟩

/-! ## C8: the type tagger -/

/-- Every tag the tagger produces is one of the eight documented ones. -/
theorem simpleType_tag_mem {κ : Type} : (v : GoVal κ) → (t : String) → simpleType v = some t →
    t = "null" ∨ t = "boolean" ∨ t = "string" ∨ t = "number" ∨ t = "array" ∨
    t = "object" ∨ t = "function" ∨ t = "promise"
  | .vnil, t, h => by simp [simpleType] at h; tauto
  | .vbool b, t, h => by simp [simpleType] at h; tauto
  | .vstr s, t, h => by simp [simpleType] at h; tauto
  | .vnum n, t, h => by simp [simpleType] at h; tauto
  | .varr l, t, h => by simp [simpleType] at h; tauto
  | .vmap l, t, h => by simp [simpleType] at h; tauto
  | .vstruct l, t, h => by simp [simpleType] at h; tauto
  | .vchan, t, h => by simp [simpleType] at h; tauto
  | .vfunc tys c, t, h => by simp [simpleType] at h; tauto
  | .vptr (some w), t, h => simpleType_tag_mem w t h
  | .vptr none, t, h => by simp [simpleType] at h

/-- C8: the claim states that an empty indirection is tagged null.  This is
false on the code: on a nil typed pointer `reflect.Indirect` produces the
zero Value and the `Interface()` call on it faults, so the tagger produces
no tag at all (while the nil interface itself is indeed tagged null). -/
theorem C8_counterexample :
    simpleType (GoVal.vptr none : GoVal Unit) = none ∧
    (none : Option String) ≠ some "null" :=
  ⟨rfl, by decide⟩

/-- C8 (amended): booleans, strings and numerics map directly; list-like
containers to array; map-like and record-like containers to object;
callables to function; a channel value to promise; the nil interface to
null; a non-empty pointer resolves to its referent's tag; a nil typed
pointer makes the tagger fault instead of yielding null; and every tag
produced is one of the eight documented ones. -/
theorem C8_amended (κ : Type) :
    (∀ b : Bool, simpleType (GoVal.vbool b : GoVal κ) = some "boolean") ∧
    (∀ s : String, simpleType (GoVal.vstr s : GoVal κ) = some "string") ∧
    (∀ n : Int, simpleType (GoVal.vnum n : GoVal κ) = some "number") ∧
    (∀ l, simpleType (GoVal.varr l : GoVal κ) = some "array") ∧
    (∀ l, simpleType (GoVal.vmap l : GoVal κ) = some "object") ∧
    (∀ l, simpleType (GoVal.vstruct l : GoVal κ) = some "object") ∧
    (∀ tys c, simpleType (GoVal.vfunc tys c : GoVal κ) = some "function") ∧
    simpleType (GoVal.vchan : GoVal κ) = some "promise" ∧
    simpleType (GoVal.vnil : GoVal κ) = some "null" ∧
    (∀ v : GoVal κ, simpleType (GoVal.vptr (some v)) = simpleType v) ∧
    simpleType (GoVal.vptr none : GoVal κ) = none ∧
    (∀ (v : GoVal κ) (t : String), simpleType v = some t →
      t = "null" ∨ t = "boolean" ∨ t = "string" ∨ t = "number" ∨ t = "array" ∨
      t = "object" ∨ t = "function" ∨ t = "promise") :=
  ⟨fun _ => rfl, fun _ => rfl, fun _ => rfl, fun _ => rfl, fun _ => rfl, fun _ => rfl,
    fun _ _ => rfl, rfl, rfl, fun _ => rfl, rfl, simpleType_tag_mem⟩

/-- C8 amended, witnessed: a channel stored behind a pointer is tagged
promise, and that tag is one of the documented eight. -/
theorem C8_amended_witness :
    simpleType (GoVal.vptr (some .vchan) : GoVal Unit) = some "promise" ∧
    ("promise" = "null" ∨ "promise" = "boolean" ∨ "promise" = "string" ∨
      "promise" = "number" ∨ "promise" = "array" ∨ "promise" = "object" ∨
      "promise" = "function" ∨ "promise" = "promise") :=
  ⟨rfl, (C8_amended Unit).2.2.2.2.2.2.2.2.2.2.2 (GoVal.vptr (some .vchan)) "promise" rfl⟩

/-! ## Further lemmas for the awaiter life cycle -/

theorem storeAssoc_self_of_load {α : Type} (l : List (String × α)) (k : String) (v : α)
    (h : loadAssoc l k = some v) : storeAssoc l k v = l := by
  induction l with
  | nil => simp [loadAssoc] at h
  | cons hd tl ih =>
    obtain ⟨k', v'⟩ := hd
    by_cases hk : k' = k
    · subst hk
      simp [loadAssoc] at h
      simp [storeAssoc, h]
    · simp [loadAssoc, hk] at h
      simp [storeAssoc, hk, ih h]

theorem loadAssoc_mem {α : Type} (l : List (String × α)) (k : String) (v : α)
    (h : loadAssoc l k = some v) : (k, v) ∈ l := by
  induction l with
  | nil => simp [loadAssoc] at h
  | cons hd tl ih =>
    obtain ⟨k', v'⟩ := hd
    by_cases hk : k' = k
    · subst hk
      simp [loadAssoc] at h
      simp [h]
    · simp [loadAssoc, hk] at h
      exact List.mem_cons_of_mem _ (ih h)

theorem filter_beq_self_of_nodup (l : List Nat) (ch : Nat) (hn : l.Nodup) (hm : ch ∈ l) :
    l.filter (fun c => c == ch) = [ch] := by
  induction l with
  | nil => simp at hm
  | cons a tl ih =>
    rw [List.nodup_cons] at hn
    rcases List.mem_cons.mp hm with rfl | hm'
    · have : tl.filter (fun c => c == ch) = [] := by
        rw [List.filter_eq_nil_iff]
        intro b hb
        simp only [beq_iff_eq]
        exact fun hcon => hn.1 (hcon ▸ hb)
      simp [List.filter_cons, this]
    · have hne : (a == ch) = false := by
        simp only [beq_eq_false_iff_ne]
        exact fun hcon => hn.1 (hcon ▸ hm')
      simp [List.filter_cons, hne, ih hn.2 hm']

theorem filter_fst_nil {κ : Type} (s : List (Nat × GoVal κ)) (ch : Nat)
    (h : ∀ p ∈ s, p.1 < ch) : s.filter (fun p => p.1 == ch) = [] := by
  rw [List.filter_eq_nil_iff]
  intro p hp
  simp only [beq_iff_eq]
  exact Nat.ne_of_lt (h p hp)

/-- A second resolve call on any awaiter is a no-op: the state and the send
log after resolving twice coincide with those after the first resolve. -/
theorem resolve_resolve {κ : Type} (aw : Awaiter κ) (ω : ChanWorld κ) (u u' : GoVal κ) :
    (aw.resolve ω u).1.resolve (aw.resolve ω u).2 u' = aw.resolve ω u := by
  by_cases h : aw.done = true
  · simp [Awaiter.resolve, h]
  · simp only [Bool.not_eq_true] at h
    simp [Awaiter.resolve, h]

/-- n consecutive `Get(key, next := true, caller)` calls, returning the n
handles in order together with the final state. -/
def getAwaitN {κ : Type} (k : String) (c : GoVal κ) :
    Nat → MicroEnv κ → ChanWorld κ → List Nat × MicroEnv κ × ChanWorld κ
  | 0, m, ω => ([], m, ω)
  | n + 1, m, ω =>
    let r := m.Get ω k true c
    let rest := getAwaitN k c n r.env r.world
    (r.handle.getD 0 :: rest.1, rest.2)

theorem getAwaitN_pending {κ : Type} (k : String) (c : GoVal κ) :
    ∀ (n : Nat) (m : MicroEnv κ) (ω : ChanWorld κ) (aw : Awaiter κ),
      loadAssoc m.awaiters k = some aw → aw.done = false →
      getAwaitN k c n m ω =
        (List.range' ω.nextCh n,
         { m with awaiters := storeAssoc m.awaiters k { aw with chs := aw.chs ++ List.range' ω.nextCh n } },
         { ω with nextCh := ω.nextCh + n }) := by
  intro n
  induction n with
  | zero =>
    intro m ω aw h hd
    have e1 : ({ aw with chs := aw.chs ++ List.range' ω.nextCh 0 } : Awaiter κ) = aw := by
      simp
    rw [e1, storeAssoc_self_of_load m.awaiters k aw h]
    simp [getAwaitN]
  | succ n ih =>
    intro m ω aw h hd
    have hg := Get_await_pending m ω k c aw h hd
    have hload : loadAssoc (storeAssoc m.awaiters k { aw with chs := aw.chs ++ [ω.nextCh] }) k =
        some { aw with chs := aw.chs ++ [ω.nextCh] } := loadAssoc_storeAssoc_self _ _ _
    have hrec := ih { m with awaiters := storeAssoc m.awaiters k { aw with chs := aw.chs ++ [ω.nextCh] } }
      { ω with nextCh := ω.nextCh + 1 } { aw with chs := aw.chs ++ [ω.nextCh] } hload hd
    simp only [getAwaitN]
    rw [hg]
    dsimp only
    rw [hrec]
    refine Prod.ext ?_ (Prod.ext ?_ ?_)
    · dsimp only
      rw [List.range'_succ]
      rfl
    · dsimp only
      rw [storeAssoc_storeAssoc_self]
      rw [List.range'_succ]
      simp [List.append_assoc]
    · dsimp only
      congr 1
      omega

/-! ## C3: fan-out of one Set to all registered await handles -/

/-- C3: for every awaiter the first resolve delivers the value to every
handle registered before it, exactly once per handle and with the identical
value — concretely, N await registrations on a key with no live awaiter
followed by one `Set(k, v)` put exactly the single send v in every returned
handle's log — and a second resolve call on an already-resolved awaiter
changes nothing. -/
theorem C3_broadcast {κ : Type} (m : MicroEnv κ) (ω : ChanWorld κ) (k : String)
    (c v cs : GoVal κ) (N : Nat)
    (h0 : loadAssoc m.awaiters k = none)
    (hw : ∀ p ∈ ω.sends, p.1 < ω.nextCh) :
    (∀ ch ∈ (getAwaitN k c N m ω).1,
      sentVals ((getAwaitN k c N m ω).2.1.Set (getAwaitN k c N m ω).2.2 k v cs).world ch = [v]) ∧
    (∀ (aw : Awaiter κ) (ω' : ChanWorld κ) (u u' : GoVal κ),
      (aw.resolve ω' u).1.resolve (aw.resolve ω' u).2 u' = aw.resolve ω' u) := by
  refine ⟨?_, fun aw ω' u u' => resolve_resolve aw ω' u u'⟩
  cases N with
  | zero =>
    intro ch hch
    simp [getAwaitN] at hch
  | succ n =>
    have hg := Get_await_fresh m ω k c h0
    have hload : loadAssoc
        (storeAssoc m.awaiters k { done := false, val := .vnil, chs := [ω.nextCh] }) k =
        some { done := false, val := .vnil, chs := [ω.nextCh] } :=
      loadAssoc_storeAssoc_self _ _ _
    have hrun := getAwaitN_pending k c n
      { m with awaiters := storeAssoc m.awaiters k { done := false, val := .vnil, chs := [ω.nextCh] } }
      { ω with nextCh := ω.nextCh + 1 }
      { done := false, val := .vnil, chs := [ω.nextCh] } hload rfl
    have hAll : getAwaitN k c (n + 1) m ω =
        (List.range' ω.nextCh (n + 1),
         { m with awaiters := storeAssoc m.awaiters k { done := false, val := .vnil, chs := List.range' ω.nextCh (n + 1) } },
         { ω with nextCh := ω.nextCh + (n + 1) }) := by
      simp only [getAwaitN]
      rw [hg]
      dsimp only
      rw [hrun]
      refine Prod.ext ?_ (Prod.ext ?_ ?_)
      · dsimp only
        rw [List.range'_succ]
        rfl
      · dsimp only
        rw [storeAssoc_storeAssoc_self, List.range'_succ]
        rfl
      · dsimp only
        congr 1
        omega
    intro ch hch
    rw [hAll] at hch ⊢
    dsimp only at hch ⊢
    have hawN : loadAssoc
        (storeAssoc m.awaiters k { done := false, val := .vnil, chs := List.range' ω.nextCh (n + 1) }) k =
        some { done := false, val := .vnil, chs := List.range' ω.nextCh (n + 1) } :=
      loadAssoc_storeAssoc_self _ _ _
    rw [Set_spec_resolve _ _ _ _ _ _ hawN]
    simp only [Awaiter.resolve, sentVals]
    rw [if_neg (by decide : ¬ (false = true))]
    dsimp only
    rw [List.filter_append]
    have hge : ω.nextCh ≤ ch := (List.mem_range'_1.mp hch).1
    have h1 : ω.sends.filter (fun p => p.1 == ch) = [] :=
      filter_fst_nil _ _ (fun p hp => lt_of_lt_of_le (hw p hp) hge)
    rw [h1]
    rw [List.filter_map]
    have h2 : List.filter ((fun p => p.1 == ch) ∘ (fun d => (d, v))) (List.range' ω.nextCh (n + 1)) = [ch] := by
      have h3 := filter_beq_self_of_nodup (List.range' ω.nextCh (n + 1)) ch (List.nodup_range' _ _) hch
      simpa [Function.comp] using h3
    rw [h2]
    simp

/-- C3 witnessed: two registrations on the fresh key "k" of the empty
environment, then one Set of 7; the first handle's log is exactly [7]. -/
theorem C3_witness :
    loadAssoc env0.awaiters "k" = none ∧
    (∀ p ∈ world0.sends, p.1 < world0.nextCh) ∧
    sentVals ((getAwaitN "k" GoVal.vnil 2 env0 world0).2.1.Set
      (getAwaitN "k" GoVal.vnil 2 env0 world0).2.2 "k" (.vnum 7) .vnil).world 0 = [.vnum 7] :=
  ⟨rfl, by simp [world0],
    (C3_broadcast env0 world0 "k" .vnil (.vnum 7) .vnil 2 rfl (by simp [world0])).1 0 (by decide)⟩

/-! ## C5: an await handle registered after a completed Set -/

/-- After a `Set` the key has no live awaiter (a resolved one was removed),
the channel counter is unchanged, and the send log still mentions only
channels below the counter. -/
theorem Set_clears_awaiter {κ : Type} (m : MicroEnv κ) (ω : ChanWorld κ) (k : String)
    (v c : GoVal κ)
    (hw : ∀ p ∈ ω.sends, p.1 < ω.nextCh)
    (haw : ∀ kv ∈ m.awaiters, ∀ ch ∈ (kv.2 : Awaiter κ).chs, ch < ω.nextCh)
    (hnd : (m.awaiters.map Prod.fst).Nodup) :
    loadAssoc (m.Set ω k v c).env.awaiters k = none ∧
    (m.Set ω k v c).world.nextCh = ω.nextCh ∧
    (∀ p ∈ (m.Set ω k v c).world.sends, p.1 < (m.Set ω k v c).world.nextCh) := by
  cases h : loadAssoc m.awaiters k with
  | none =>
    rw [Set_spec_none m ω k v c h]
    exact ⟨h, rfl, hw⟩
  | some aw =>
    rw [Set_spec_resolve m ω k v c aw h]
    refine ⟨loadAssoc_eraseAssoc_self _ _ hnd, ?_, ?_⟩
    · by_cases hdone : aw.done = true
      · simp [Awaiter.resolve, hdone]
      · simp only [Bool.not_eq_true] at hdone
        simp [Awaiter.resolve, hdone]
    · intro p hp
      by_cases hdone : aw.done = true
      · simp only [Awaiter.resolve, hdone, if_pos] at hp ⊢
        exact hw p hp
      · simp only [Bool.not_eq_true] at hdone
        simp only [Awaiter.resolve, hdone] at hp ⊢
        rw [if_neg (by decide : ¬ (false = true))] at hp ⊢
        dsimp only at hp ⊢
        rcases List.mem_append.mp hp with hp' | hp'
        · exact hw p hp'
        · obtain ⟨ch0, hch0, rfl⟩ := List.mem_map.mp hp'
          exact haw (k, aw) (loadAssoc_mem _ _ _ h) ch0 hch0

/-- C5: an await handle obtained from `Get(k, next := true)` strictly after
a `Set(k, v)` has returned does not receive v: the Set removed the key's
awaiter, the Get creates and registers on a brand-new unresolved awaiter,
the new handle's log is empty, and only the next `Set(k, v2)` delivers —
exactly v2 — to it. -/
theorem C5_await_after_set {κ : Type} (m : MicroEnv κ) (ω : ChanWorld κ) (k : String)
    (v v2 c c2 c3 : GoVal κ)
    (hw : ∀ p ∈ ω.sends, p.1 < ω.nextCh)
    (haw : ∀ kv ∈ m.awaiters, ∀ ch ∈ (kv.2 : Awaiter κ).chs, ch < ω.nextCh)
    (hnd : (m.awaiters.map Prod.fst).Nodup) :
    loadAssoc (m.Set ω k v c).env.awaiters k = none ∧
    ((m.Set ω k v c).env.Get (m.Set ω k v c).world k true c2).handle =
      some (m.Set ω k v c).world.nextCh ∧
    loadAssoc ((m.Set ω k v c).env.Get (m.Set ω k v c).world k true c2).env.awaiters k =
      some { done := false, val := .vnil, chs := [(m.Set ω k v c).world.nextCh] } ∧
    sentVals ((m.Set ω k v c).env.Get (m.Set ω k v c).world k true c2).world
      (m.Set ω k v c).world.nextCh = [] ∧
    sentVals (((m.Set ω k v c).env.Get (m.Set ω k v c).world k true c2).env.Set
      ((m.Set ω k v c).env.Get (m.Set ω k v c).world k true c2).world k v2 c3).world
      (m.Set ω k v c).world.nextCh = [v2] := by
  obtain ⟨h1, h2, h3⟩ := Set_clears_awaiter m ω k v c hw haw hnd
  have hg := Get_await_fresh (m.Set ω k v c).env (m.Set ω k v c).world k c2 h1
  refine ⟨h1, ?_, ?_, ?_, ?_⟩
  · rw [hg]
  · rw [hg]
    exact loadAssoc_storeAssoc_self _ _ _
  · rw [hg]
    dsimp only
    simp only [sentVals]
    rw [filter_fst_nil _ _ h3]
    rfl
  · rw [hg]
    dsimp only
    have hload2 : loadAssoc
        (storeAssoc (m.Set ω k v c).env.awaiters k
          { done := false, val := .vnil, chs := [(m.Set ω k v c).world.nextCh] }) k =
        some { done := false, val := .vnil, chs := [(m.Set ω k v c).world.nextCh] } :=
      loadAssoc_storeAssoc_self _ _ _
    rw [Set_spec_resolve _ _ _ _ _ _ hload2]
    simp only [Awaiter.resolve, sentVals]
    rw [if_neg (by decide : ¬ (false = true))]
    dsimp only
    rw [List.filter_append, filter_fst_nil _ _ h3]
    simp

/-- C5 witnessed: on the empty environment, Set 1 under "k", then an await
registration, then Set 2: the handle created after the first Set has an
empty log until the second Set, which delivers exactly [2]. -/
theorem C5_witness :
    (∀ p ∈ world0.sends, p.1 < world0.nextCh) ∧
    ((env0.awaiters.map Prod.fst).Nodup) ∧
    sentVals ((env0.Set world0 "k" (.vnum 1) .vnil).env.Get
      (env0.Set world0 "k" (.vnum 1) .vnil).world "k" true .vnil).world
      (env0.Set world0 "k" (.vnum 1) .vnil).world.nextCh = [] ∧
    sentVals (((env0.Set world0 "k" (.vnum 1) .vnil).env.Get
      (env0.Set world0 "k" (.vnum 1) .vnil).world "k" true .vnil).env.Set
      ((env0.Set world0 "k" (.vnum 1) .vnil).env.Get
        (env0.Set world0 "k" (.vnum 1) .vnil).world "k" true .vnil).world "k" (.vnum 2) .vnil).world
      (env0.Set world0 "k" (.vnum 1) .vnil).world.nextCh = [.vnum 2] :=
  ⟨by simp [world0], by simp [env0, NewMicroEnv],
    (C5_await_after_set env0 world0 "k" (.vnum 1) (.vnum 2) .vnil .vnil .vnil
      (by simp [world0]) (by simp [env0, NewMicroEnv]) (by simp [env0, NewMicroEnv])).2.2.2.1,
    (C5_await_after_set env0 world0 "k" (.vnum 1) (.vnum 2) .vnil .vnil .vnil
      (by simp [world0]) (by simp [env0, NewMicroEnv]) (by simp [env0, NewMicroEnv])).2.2.2.2⟩
